import Mathlib

/-!
Shallow embedding of `dataset_utils.py` (PneumoniaClassXAI).

Conventions of the embedding:
* Python floats for split ratios become exact rationals ℚ; the ratios of
  interest are fractions (nonnegative, summing to 1), where float and
  rational arithmetic agree on the ceilings taken by the code.
* Filesystem paths are lists of components (the arguments of os.path.join).
* The filesystem itself is passed in explicitly as a structure of pure
  functions (dirExists / listDir / ...), matching what the code observes.
* Python's global PRNG (`random.shuffle`, line 83) is passed in explicitly
  as a list permutation `rng : List String → List String`.  The kaggle
  variant applies it; `organize_dataset_nih` never calls `random.shuffle`
  in the source, so its embedding ignores `rng`.
* Fallible code (the `assert` on line 65, the division on line 209) is
  embedded with `Except String`.
* Python list slicing `l[a:b]` with nonnegative bounds is `(l.drop a).take
  (b - a)`; the sizes produced by the code are nonnegative for fractional
  ratios, which is the regime every claim below quantifies over.
-/

namespace DatasetUtils

/-- Split ratios `(train, val, test)`, the `split_ratios` 3-tuple of the
source (default `(0.8, 0.1, 0.1)`), embedded as rationals. -/
structure SplitRatios where
  train : ℚ
  val : ℚ
  test : ℚ
deriving DecidableEq

/-- `sum(split_ratios)` (line 65). -/
def SplitRatios.sum (r : SplitRatios) : ℚ := r.train + r.val + r.test

/-- `train_size = ceil(split_ratios[0] * total_images)` (lines 87, 120).
For fractional ratios the ceiling is a nonnegative integer; `Int.toNat`
reflects that Python then uses it as a nonnegative slice bound. -/
def trainSize (r : SplitRatios) (n : ℕ) : ℕ := (Int.ceil (r.train * n)).toNat

/-- `val_size = ceil(split_ratios[1] * total_images)` (lines 88, 121). -/
def valSize (r : SplitRatios) (n : ℕ) : ℕ := (Int.ceil (r.val * n)).toNat

/-- The partition step shared by both reorganizer variants (lines 90-92 and
123-125):
`train_data = l[:train_size]`, `val_data = l[train_size:train_size+val_size]`,
`test_data = l[train_size+val_size:]`. -/
def partitionList (r : SplitRatios) (l : List α) : List α × List α × List α :=
  let ts := trainSize r l.length
  let vs := valSize r l.length
  (l.take ts, (l.drop ts).take vs, l.drop (ts + vs))

/-- C4: for every SplitRatios with components nonnegative fractions summing
to 1 and every class image list, the three slices produced by the partition
step have lengths summing exactly to the list length, and the test slice is
clamped to empty when `train_size + val_size >= n`. -/
theorem partition_sizes_sum (r : SplitRatios) (l : List α)
    (hsum : r.sum = 1) (ht : 0 ≤ r.train) (hv : 0 ≤ r.val) :
    (partitionList r l).1.length + (partitionList r l).2.1.length
        + (partitionList r l).2.2.length = l.length
    ∧ (l.length ≤ trainSize r l.length + valSize r l.length
        → (partitionList r l).2.2 = []) := by
  constructor
  · simp [partitionList, List.length_take, List.length_drop]
    omega
  · intro h
    simp [partitionList, List.drop_eq_nil_iff]
    omega

/-- Witness for C4 at ratios (4/5, 1/10, 1/10) and a 3-element list. -/
theorem partition_sizes_sum_witness :
    (partitionList ⟨4/5, 1/10, 1/10⟩ ["a", "b", "c"]).1.length
        + (partitionList ⟨4/5, 1/10, 1/10⟩ ["a", "b", "c"]).2.1.length
        + (partitionList ⟨4/5, 1/10, 1/10⟩ ["a", "b", "c"]).2.2.length = 3
    ∧ (3 ≤ trainSize ⟨4/5, 1/10, 1/10⟩ 3 + valSize ⟨4/5, 1/10, 1/10⟩ 3
        → (partitionList ⟨4/5, 1/10, 1/10⟩ ["a", "b", "c"]).2.2 = []) := by
  have h := partition_sizes_sum (⟨4/5, 1/10, 1/10⟩ : SplitRatios)
    ["a", "b", "c"] (by norm_num [SplitRatios.sum]) (by norm_num) (by norm_num)
  simpa using h

/-- `ceil(0.8 * 3) = ceil(2.4) = 3`. -/
lemma trainSize_three : trainSize ⟨4/5, 1/10, 1/10⟩ 3 = 3 := by
  show (⌈(4/5 : ℚ) * ((3 : ℕ) : ℚ)⌉).toNat = 3
  rw [show (⌈(4/5 : ℚ) * ((3 : ℕ) : ℚ)⌉ : ℤ) = 3 by norm_num [Int.ceil_eq_iff]]
  rfl

/-- `ceil(0.1 * 3) = ceil(0.3) = 1`. -/
lemma valSize_three : valSize ⟨4/5, 1/10, 1/10⟩ 3 = 1 := by
  show (⌈(1/10 : ℚ) * ((3 : ℕ) : ℚ)⌉).toNat = 1
  rw [show (⌈(1/10 : ℚ) * ((3 : ℕ) : ℚ)⌉ : ℤ) = 1 by norm_num [Int.ceil_eq_iff]]
  rfl

/-- C5 counterexample: with 3 items and ratios (0.8, 0.1, 0.1) the val slice
is empty (the train slice already consumed all 3 items), not 1 item as
claimed. -/
theorem partition_three_items_cex :
    partitionList ⟨4/5, 1/10, 1/10⟩ ["a", "b", "c"] = (["a", "b", "c"], [], [])
    ∧ (partitionList ⟨4/5, 1/10, 1/10⟩ ["a", "b", "c"]).2.1.length ≠ 1 := by
  have h : partitionList ⟨4/5, 1/10, 1/10⟩ ["a", "b", "c"]
      = (["a", "b", "c"], [], []) := by
    show ((["a", "b", "c"] : List String).take (trainSize ⟨4/5, 1/10, 1/10⟩ 3),
      ((["a", "b", "c"] : List String).drop (trainSize ⟨4/5, 1/10, 1/10⟩ 3)).take
        (valSize ⟨4/5, 1/10, 1/10⟩ 3),
      (["a", "b", "c"] : List String).drop
        (trainSize ⟨4/5, 1/10, 1/10⟩ 3 + valSize ⟨4/5, 1/10, 1/10⟩ 3))
      = (["a", "b", "c"], [], [])
    rw [trainSize_three, valSize_three]; rfl
  exact ⟨h, by rw [h]; decide⟩

/-- C5 amended: for a 3-item list and ratios (0.8, 0.1, 0.1) the computed
sizes are `train_size = ceil(2.4) = 3` and `val_size = ceil(0.3) = 1`, but
the produced slices are train = all 3 items, val = 0 items (the list is
exhausted, so the nominal val size is clamped), test = 0 items. -/
theorem partition_three_items :
    trainSize ⟨4/5, 1/10, 1/10⟩ 3 = 3
    ∧ valSize ⟨4/5, 1/10, 1/10⟩ 3 = 1
    ∧ partitionList ⟨4/5, 1/10, 1/10⟩ ["a", "b", "c"]
        = (["a", "b", "c"], [], []) := by
  refine ⟨trainSize_three, valSize_three, ?_⟩
  show ((["a", "b", "c"] : List String).take (trainSize ⟨4/5, 1/10, 1/10⟩ 3),
    ((["a", "b", "c"] : List String).drop (trainSize ⟨4/5, 1/10, 1/10⟩ 3)).take
      (valSize ⟨4/5, 1/10, 1/10⟩ 3),
    (["a", "b", "c"] : List String).drop
      (trainSize ⟨4/5, 1/10, 1/10⟩ 3 + valSize ⟨4/5, 1/10, 1/10⟩ 3))
    = (["a", "b", "c"], [], [])
  rw [trainSize_three, valSize_three]; rfl

/-- Evaluation helper: `Int.toNat` of a ceiling once the ceiling is known. -/
lemma toNat_ceil_eq {q : ℚ} {k : ℕ} (h : (⌈q⌉ : ℤ) = (k : ℤ)) :
    (⌈q⌉).toNat = k := by
  rw [h]; rfl

/-- Evaluation helper: the partition step once both sizes are known. -/
lemma partitionList_eval {r : SplitRatios} {l : List α} {n a b : ℕ}
    (hn : l.length = n) (ha : trainSize r n = a) (hb : valSize r n = b) :
    partitionList r l = (l.take a, (l.drop a).take b, l.drop (a + b)) := by
  simp only [partitionList]
  rw [hn, ha, hb]

/-- Python substring containment, `needle in hay` (lines 112, 114),
over the character lists of the two strings. -/
def containsSub (hay needle : String) : Bool :=
  (List.range (hay.toList.length + 1)).any
    (fun i => (hay.toList.drop i).take needle.toList.length == needle.toList)

/-- One row of the metadata table `data_entry_df`: the `Image Index` and
`Finding Labels` columns read on lines 112-115. -/
structure MetadataRow where
  imageIndex : String
  findingLabels : String
deriving DecidableEq

/-- The row loop of `organize_dataset_nih` (lines 111-115): a row goes to
the pneumonia list when its finding labels contain `Pneumonia`, otherwise
(elif) to the normal list when they contain `No Finding`, otherwise to
neither.  Results keep row order, as the appends in the source do. -/
def nihClassLists : List MetadataRow → List String × List String
  | [] => ([], [])
  | row :: rest =>
    let acc := nihClassLists rest
    if containsSub row.findingLabels "Pneumonia" then
      (row.imageIndex :: acc.1, acc.2)
    else if containsSub row.findingLabels "No Finding" then
      (acc.1, row.imageIndex :: acc.2)
    else acc

/-- One `shutil.copy` into `<dest>/<split>/<class>/<basename>` (lines 100,
133). -/
structure CopyOp where
  split : String
  className : String
  file : String
deriving DecidableEq

/-- The copy loop over `zip(['train','val','test'], [train_data, val_data,
test_data])` (lines 95-100 and 128-133), for one class. -/
def splitCopyOps (className : String)
    (parts : List String × List String × List String) : List CopyOp :=
  parts.1.map (fun f => ⟨"train", className, f⟩)
    ++ parts.2.1.map (fun f => ⟨"val", className, f⟩)
    ++ parts.2.2.map (fun f => ⟨"test", className, f⟩)

/-- `organize_dataset_nih` (lines 106-135), as the list of copy operations
it performs.  `rng` is the ambient PRNG permutation (`random.shuffle` of
the `random` module); this function never calls it in the source, so the
result ignores `rng`.  The source also performs no assertion on
`split_ratios`: the partition runs unconditionally. -/
def organize_dataset_nih (rng : List String → List String)
    (rows : List MetadataRow) (r : SplitRatios) : List CopyOp :=
  let lists := nihClassLists rows
  splitCopyOps "PNEUMONIA" (partitionList r lists.1)
    ++ splitCopyOps "NORMAL" (partitionList r lists.2)

/-- Modelled from the spec: the metadata variant as the spec describes it,
with step 2 of the shared Reorganizer contract (shuffle each class's
collected paths with the ambient PRNG before partitioning).  Used only to
compare the spec's shuffling behaviour against the source's. -/
def organize_dataset_nih_shuffled (rng : List String → List String)
    (rows : List MetadataRow) (r : SplitRatios) : List CopyOp :=
  let lists := nihClassLists rows
  splitCopyOps "PNEUMONIA" (partitionList r (rng lists.1))
    ++ splitCopyOps "NORMAL" (partitionList r (rng lists.2))

/-- `class_name.startswith('.')` (line 74), over the character list. -/
def startsWithDot (s : String) : Bool :=
  match s.toList with
  | [] => false
  | c :: _ => c = '.'

/-- The directory tree handed to `reorganize_dataset_kaggle`:
`trainListing` is `os.listdir(original_dataset/train)` (line 67), and
`classFolder folder cls` is the listing of
`original_dataset/<folder>/<cls>` when that folder exists (lines 77-79),
`none` when `os.path.exists` is false. -/
structure RawDirTree where
  trainListing : List String
  classFolder : String → String → Option (List String)

/-- The collection loop of `reorganize_dataset_kaggle` (lines 73-80): all
images of one class across the raw `train`, `val`, `test` folders, in that
order, skipping folders that do not exist. -/
def collectClass (fs : RawDirTree) (cls : String) : List String :=
  (["train", "val", "test"].map
    (fun folder => (fs.classFolder folder cls).getD [])).flatten

/-- `reorganize_dataset_kaggle` (lines 63-101): asserts the ratio sum
first (line 65, before any filesystem access — on failure the result is an
`AssertionError` independent of the filesystem, with no copy operation);
then, for each non-dot entry of the raw `train` listing, collects,
shuffles with the ambient PRNG (`random.shuffle`, line 83), partitions and
copies. -/
def reorganize_dataset_kaggle (rng : List String → List String)
    (fs : RawDirTree) (r : SplitRatios) : Except String (List CopyOp) :=
  if r.sum = 1 then
    .ok (((fs.trainListing.filter (fun c => !startsWithDot c)).map
      (fun cls =>
        splitCopyOps cls (partitionList r (rng (collectClass fs cls))))).flatten)
  else .error "AssertionError"

/-- C1 counterexample: a row whose finding labels contain both substrings
(`"No Finding|Pneumonia"`) is assigned to the PNEUMONIA list, not excluded
from both classes; in particular the row contains `"No Finding"` yet is
not assigned to NORMAL. -/
theorem nih_label_rule_cex :
    containsSub "No Finding|Pneumonia" "Pneumonia" = true
    ∧ containsSub "No Finding|Pneumonia" "No Finding" = true
    ∧ nihClassLists [⟨"img1.png", "No Finding|Pneumonia"⟩]
        = (["img1.png"], []) := by
  decide

/-- C1 amended: a row is assigned to PNEUMONIA iff its finding labels
contain `"Pneumonia"`; it is assigned to NORMAL iff they contain
`"No Finding"` and do not contain `"Pneumonia"` (the Pneumonia branch
takes precedence); rows matching neither substring are excluded from both
classes. -/
theorem nih_label_rule (rows : List MetadataRow) :
    (nihClassLists rows).1
      = (rows.filter (fun row => containsSub row.findingLabels "Pneumonia")).map
          (fun row => row.imageIndex)
    ∧ (nihClassLists rows).2
      = (rows.filter (fun row => containsSub row.findingLabels "No Finding"
            && !containsSub row.findingLabels "Pneumonia")).map
          (fun row => row.imageIndex) := by
  induction rows with
  | nil => simp [nihClassLists]
  | cons row rest ih =>
    rcases ih with ⟨ih1, ih2⟩
    by_cases hp : containsSub row.findingLabels "Pneumonia" = true
    · simp [nihClassLists, hp, ih1, ih2]
    · by_cases hn : containsSub row.findingLabels "No Finding" = true
      · simp [nihClassLists, hp, hn, ih1, ih2]
      · simp [nihClassLists, hp, hn, ih1, ih2]

/-- Ratios (0.5, 0.2, 0.2), which sum to 0.9, not 1. -/
def badRatios : SplitRatios := ⟨1/2, 1/5, 1/5⟩

/-- A two-row metadata table: one pneumonia row, one no-finding row. -/
def cexRows : List MetadataRow :=
  [⟨"a.png", "Pneumonia"⟩, ⟨"b.png", "No Finding"⟩]

/-- Ratios (0.5, 0.5, 0), which sum to 1. -/
def halfRatios : SplitRatios := ⟨1/2, 1/2, 0⟩

lemma halfRatios_sum : halfRatios.sum = 1 := by
  norm_num [halfRatios, SplitRatios.sum]

/-- A two-row metadata table with two pneumonia rows. -/
def twoPneumoniaRows : List MetadataRow :=
  [⟨"a", "Pneumonia"⟩, ⟨"b", "Pneumonia"⟩]

/-- A raw tree whose `train` listing has one class `PNEUMONIA` holding two
images; `val` and `test` folders do not exist. -/
def demoFS : RawDirTree :=
  ⟨["PNEUMONIA"], fun folder cls =>
    if folder = "train" ∧ cls = "PNEUMONIA" then some ["a", "b"] else none⟩

/-- A raw tree whose `train` listing has only `NORMAL` (with no folder on
disk); a `PNEUMONIA` class folder exists only under `val`. -/
def valOnlyFS : RawDirTree :=
  ⟨["NORMAL"], fun folder cls =>
    if folder = "val" ∧ cls = "PNEUMONIA" then some ["x"] else none⟩

lemma trainSize_bad_one : trainSize badRatios 1 = 1 := by
  show (⌈(1/2 : ℚ) * ((1 : ℕ) : ℚ)⌉).toNat = 1
  exact toNat_ceil_eq (by norm_num [Int.ceil_eq_iff])

lemma valSize_bad_one : valSize badRatios 1 = 1 := by
  show (⌈(1/5 : ℚ) * ((1 : ℕ) : ℚ)⌉).toNat = 1
  exact toNat_ceil_eq (by norm_num [Int.ceil_eq_iff])

lemma trainSize_half_two : trainSize halfRatios 2 = 1 := by
  show (⌈(1/2 : ℚ) * ((2 : ℕ) : ℚ)⌉).toNat = 1
  exact toNat_ceil_eq (by norm_num [Int.ceil_eq_iff])

lemma valSize_half_two : valSize halfRatios 2 = 1 := by
  show (⌈(1/2 : ℚ) * ((2 : ℕ) : ℚ)⌉).toNat = 1
  exact toNat_ceil_eq (by norm_num [Int.ceil_eq_iff])

lemma partitionList_nil (r : SplitRatios) :
    partitionList r ([] : List α) = ([], [], []) := by
  simp [partitionList]

/-- `organize_dataset_nih` on the two-row table with the 0.9-sum ratios:
it performs two copies, whatever the ambient PRNG is. -/
lemma nih_bad_ratio_eval (rng : List String → List String) :
    organize_dataset_nih rng cexRows badRatios
      = [⟨"train", "PNEUMONIA", "a.png"⟩, ⟨"train", "NORMAL", "b.png"⟩] := by
  have hl : nihClassLists cexRows = (["a.png"], ["b.png"]) := by decide
  have hla : (["a.png"] : List String).length = 1 := rfl
  have hlb : (["b.png"] : List String).length = 1 := rfl
  simp only [organize_dataset_nih, hl]
  rw [partitionList_eval hla trainSize_bad_one valSize_bad_one,
    partitionList_eval hlb trainSize_bad_one valSize_bad_one]
  rfl

/-- C2 counterexample: with ratios summing to 0.9, `organize_dataset_nih`
does not fail with a configuration error; it proceeds and performs copy
operations (the source has no ratio assertion in this variant). -/
theorem ratio_check_nih_cex :
    badRatios.sum ≠ 1
    ∧ organize_dataset_nih id cexRows badRatios
        = [⟨"train", "PNEUMONIA", "a.png"⟩, ⟨"train", "NORMAL", "b.png"⟩] := by
  exact ⟨by norm_num [badRatios, SplitRatios.sum], nih_bad_ratio_eval id⟩

/-- C2 amended: only the directory-tree variant validates the ratios:
`reorganize_dataset_kaggle` fails with an assertion error before any
filesystem access (the result is the same error for every filesystem and
carries no copy operation) whenever the ratios do not sum to 1, while
`organize_dataset_nih` performs no ratio validation and proceeds to copy
files even on ratios summing to 0.9. -/
theorem ratio_check_amended (σ : List String → List String)
    (fs : RawDirTree) (r : SplitRatios) (h : r.sum ≠ 1) :
    reorganize_dataset_kaggle σ fs r = .error "AssertionError"
    ∧ organize_dataset_nih σ cexRows badRatios ≠ [] := by
  constructor
  · simp only [reorganize_dataset_kaggle, if_neg h]
  · rw [nih_bad_ratio_eval σ]
    decide

/-- Witness for C2 (amended) at ratios (0.5, 0.2, 0.2). -/
theorem ratio_check_amended_witness :
    reorganize_dataset_kaggle id demoFS badRatios = .error "AssertionError"
    ∧ organize_dataset_nih id cexRows badRatios ≠ [] :=
  ratio_check_amended id demoFS badRatios
    (by norm_num [badRatios, SplitRatios.sum])

/-- C3 counterexample: with the ambient PRNG permutation being list
reversal, `organize_dataset_nih` still partitions the pneumonia list in
metadata-row order (the source never calls `random.shuffle`), whereas the
spec-modelled shuffling variant partitions the reversed list; the two
disagree. -/
theorem shuffle_step_cex :
    organize_dataset_nih List.reverse twoPneumoniaRows halfRatios
      = [⟨"train", "PNEUMONIA", "a"⟩, ⟨"val", "PNEUMONIA", "b"⟩]
    ∧ organize_dataset_nih_shuffled List.reverse twoPneumoniaRows halfRatios
      = [⟨"train", "PNEUMONIA", "b"⟩, ⟨"val", "PNEUMONIA", "a"⟩]
    ∧ organize_dataset_nih List.reverse twoPneumoniaRows halfRatios
      ≠ organize_dataset_nih_shuffled List.reverse twoPneumoniaRows halfRatios := by
  have hl : nihClassLists twoPneumoniaRows = (["a", "b"], []) := by decide
  have h1 : organize_dataset_nih List.reverse twoPneumoniaRows halfRatios
      = [⟨"train", "PNEUMONIA", "a"⟩, ⟨"val", "PNEUMONIA", "b"⟩] := by
    have hab : (["a", "b"] : List String).length = 2 := rfl
    simp only [organize_dataset_nih, hl]
    rw [partitionList_eval hab trainSize_half_two valSize_half_two,
      partitionList_nil]
    rfl
  have h2 : organize_dataset_nih_shuffled List.reverse twoPneumoniaRows halfRatios
      = [⟨"train", "PNEUMONIA", "b"⟩, ⟨"val", "PNEUMONIA", "a"⟩] := by
    simp only [organize_dataset_nih_shuffled, hl]
    have hrev : (["a", "b"] : List String).reverse = ["b", "a"] := by decide
    have hrevnil : (([] : List String)).reverse = [] := by decide
    have hba : (["b", "a"] : List String).length = 2 := rfl
    rw [hrev, hrevnil, partitionList_eval hba trainSize_half_two valSize_half_two,
      partitionList_nil]
    rfl
  refine ⟨h1, h2, ?_⟩
  rw [h1, h2]
  decide

/-- C3 amended: only the directory-tree variant shuffles.  The output of
`organize_dataset_nih` is independent of the ambient PRNG permutation (the
source never calls `random.shuffle` there), while the output of
`reorganize_dataset_kaggle` does depend on it (line 83 shuffles the
collected list before partitioning). -/
theorem shuffle_step_amended (σ σ' : List String → List String)
    (rows : List MetadataRow) (r : SplitRatios) :
    organize_dataset_nih σ rows r = organize_dataset_nih σ' rows r
    ∧ reorganize_dataset_kaggle List.reverse demoFS halfRatios
        ≠ reorganize_dataset_kaggle id demoFS halfRatios := by
  refine ⟨rfl, ?_⟩
  have hfil : demoFS.trainListing.filter (fun c => !startsWithDot c)
      = ["PNEUMONIA"] := by decide
  have hcol : collectClass demoFS "PNEUMONIA" = ["a", "b"] := by decide
  have h1 : reorganize_dataset_kaggle List.reverse demoFS halfRatios
      = .ok [⟨"train", "PNEUMONIA", "b"⟩, ⟨"val", "PNEUMONIA", "a"⟩] := by
    simp only [reorganize_dataset_kaggle, if_pos halfRatios_sum, hfil,
      List.map, List.flatten, hcol]
    have hrev : (["a", "b"] : List String).reverse = ["b", "a"] := by decide
    have hba : (["b", "a"] : List String).length = 2 := rfl
    rw [hrev, partitionList_eval hba trainSize_half_two valSize_half_two]
    rfl
  have h2 : reorganize_dataset_kaggle id demoFS halfRatios
      = .ok [⟨"train", "PNEUMONIA", "a"⟩, ⟨"val", "PNEUMONIA", "b"⟩] := by
    simp only [reorganize_dataset_kaggle, if_pos halfRatios_sum, hfil,
      List.map, List.flatten, hcol, id]
    have hab : (["a", "b"] : List String).length = 2 := rfl
    rw [partitionList_eval hab trainSize_half_two valSize_half_two]
    rfl
  rw [h1, h2]
  intro hcon
  exact absurd (Except.ok.inj hcon) (by decide)

/-- Every copy operation emitted for one class carries that class name. -/
lemma mem_splitCopyOps {op : CopyOp} {c : String}
    {parts : List String × List String × List String}
    (h : op ∈ splitCopyOps c parts) : op.className = c := by
  simp only [splitCopyOps, List.mem_append, List.mem_map] at h
  rcases h with (⟨f, _, rfl⟩ | ⟨f, _, rfl⟩) | ⟨f, _, rfl⟩ <;> rfl

/-- C10: `reorganize_dataset_kaggle` takes its class set from the raw
`train` listing alone; for any class name not in that listing — in
particular one whose folder exists only under the raw `val` or `test`
directories — no copy operation of that class is produced. -/
theorem kaggle_classes_from_train (σ : List String → List String)
    (fs : RawDirTree) (r : SplitRatios) (cls : String)
    (hcls : cls ∉ fs.trainListing) (ops : List CopyOp)
    (hok : reorganize_dataset_kaggle σ fs r = .ok ops) :
    ∀ op ∈ ops, op.className ≠ cls := by
  intro op hop
  by_cases hsum : r.sum = 1
  · simp only [reorganize_dataset_kaggle, if_pos hsum] at hok
    rw [← Except.ok.inj hok] at hop
    rcases List.mem_flatten.mp hop with ⟨l, hl, hopl⟩
    rcases List.mem_map.mp hl with ⟨c, hc, rfl⟩
    have hcEq : op.className = c := mem_splitCopyOps hopl
    have hcMem : c ∈ fs.trainListing := (List.mem_filter.mp hc).1
    intro hEq
    exact hcls (hEq ▸ hcEq ▸ hcMem)
  · simp only [reorganize_dataset_kaggle, if_neg hsum] at hok
    exact Except.noConfusion hok

/-- Witness for C10: a `PNEUMONIA` folder existing only under raw `val`
produces no copy operation, since `PNEUMONIA` is not in the `train`
listing. -/
theorem kaggle_classes_from_train_witness :
    ("PNEUMONIA" ∉ valOnlyFS.trainListing)
    ∧ reorganize_dataset_kaggle id valOnlyFS halfRatios = .ok []
    ∧ ∀ op ∈ ([] : List CopyOp), op.className ≠ "PNEUMONIA" := by
  have hok : reorganize_dataset_kaggle id valOnlyFS halfRatios = .ok [] := by
    simp only [reorganize_dataset_kaggle, if_pos halfRatios_sum]
    have hfil : valOnlyFS.trainListing.filter (fun c => !startsWithDot c)
        = ["NORMAL"] := by decide
    have hcol : collectClass valOnlyFS "NORMAL" = [] := by decide
    simp only [hfil, List.map, List.flatten, hcol, id]
    rw [partitionList_nil]
    rfl
  exact ⟨by decide, hok,
    kaggle_classes_from_train id valOnlyFS halfRatios "PNEUMONIA"
      (by decide) [] hok⟩

/-- The filesystem as observed by `get_dataset_counts` (lines 139-176):
existence of a folder, its listing, and the regular-file test. -/
structure DatasetFS where
  dirExists : List String → Bool
  listDir : List String → List String
  isFile : List String → Bool

/-- The count stored in `class_counts[split][class_name]` after the loops
of lines 145-161: the number of regular files in the class folder, left at
its initial 0 when the split folder (line 148, `continue`) or the class
folder (line 160) does not exist. -/
def splitClassCount (fs : DatasetFS) (root split cls : String) : ℕ :=
  if fs.dirExists [root, split] then
    if fs.dirExists [root, split, cls] then
      ((fs.listDir [root, split, cls]).filter
        (fun f => fs.isFile [root, split, cls, f])).length
    else 0
  else 0

/-- The warnings printed on lines 149 and 161, as the missing folder
paths, in loop order (splits in the dict insertion order train, test,
val; one warning per missing split folder, else one per missing class
folder). -/
def countWarnings (fs : DatasetFS) (root : String) : List (List String) :=
  (["train", "test", "val"].map (fun split =>
    if fs.dirExists [root, split] then
      ["NORMAL", "PNEUMONIA"].filterMap (fun cls =>
        if fs.dirExists [root, split, cls] then none
        else some [root, split, cls])
    else [[root, split]])).flatten

/-- The `result_df` of lines 163-173: the six per-split per-class counts,
the computed `Total` column (line 170), and the computed `Total` row
(lines 163-167). -/
structure CountTable where
  trainNormal : ℕ
  trainPneumonia : ℕ
  testNormal : ℕ
  testPneumonia : ℕ
  valNormal : ℕ
  valPneumonia : ℕ
  trainTotal : ℕ
  testTotal : ℕ
  valTotal : ℕ
  totalNormal : ℕ
  totalPneumonia : ℕ
  grandTotal : ℕ

/-- Table lookup by split and class name, for stating properties of the
six count entries uniformly. -/
def CountTable.entry (t : CountTable) (split cls : String) : ℕ :=
  if split = "train" then
    if cls = "NORMAL" then t.trainNormal else t.trainPneumonia
  else if split = "test" then
    if cls = "NORMAL" then t.testNormal else t.testPneumonia
  else
    if cls = "NORMAL" then t.valNormal else t.valPneumonia

/-- `get_dataset_counts` (lines 139-176): produces the table together with
the warnings.  The `Total` row is accumulated exactly as the loop of lines
164-167 does: over the `(class_name, count)` pairs of the `class_counts`
dict in insertion order, adding each count to its class total and to the
grand total. -/
def get_dataset_counts (fs : DatasetFS) (root : String) :
    CountTable × List (List String) :=
  let c := splitClassCount fs root
  let pairs : List (String × ℕ) :=
    (["train", "test", "val"].map (fun split =>
      [("NORMAL", c split "NORMAL"), ("PNEUMONIA", c split "PNEUMONIA")])).flatten
  let totals := pairs.foldl
    (fun (t : ℕ × ℕ × ℕ) p =>
      if p.1 = "NORMAL" then (t.1 + p.2, t.2.1, t.2.2 + p.2)
      else (t.1, t.2.1 + p.2, t.2.2 + p.2))
    (0, 0, 0)
  (⟨c "train" "NORMAL", c "train" "PNEUMONIA",
    c "test" "NORMAL", c "test" "PNEUMONIA",
    c "val" "NORMAL", c "val" "PNEUMONIA",
    c "train" "NORMAL" + c "train" "PNEUMONIA",
    c "test" "NORMAL" + c "test" "PNEUMONIA",
    c "val" "NORMAL" + c "val" "PNEUMONIA",
    totals.1, totals.2.1, totals.2.2⟩,
   countWarnings fs root)

/-- C6: in the produced CountTable, each split's `Total` entry is its
NORMAL count plus its PNEUMONIA count, the `Total` row's per-class entries
are the sums of that class's counts over the three splits, and the grand
total is the sum of all six per-split per-class counts. -/
theorem count_table_totals (fs : DatasetFS) (root : String) :
    ((get_dataset_counts fs root).1.trainTotal
        = (get_dataset_counts fs root).1.trainNormal
          + (get_dataset_counts fs root).1.trainPneumonia
      ∧ (get_dataset_counts fs root).1.testTotal
        = (get_dataset_counts fs root).1.testNormal
          + (get_dataset_counts fs root).1.testPneumonia
      ∧ (get_dataset_counts fs root).1.valTotal
        = (get_dataset_counts fs root).1.valNormal
          + (get_dataset_counts fs root).1.valPneumonia)
    ∧ ((get_dataset_counts fs root).1.totalNormal
        = (get_dataset_counts fs root).1.trainNormal
          + (get_dataset_counts fs root).1.testNormal
          + (get_dataset_counts fs root).1.valNormal
      ∧ (get_dataset_counts fs root).1.totalPneumonia
        = (get_dataset_counts fs root).1.trainPneumonia
          + (get_dataset_counts fs root).1.testPneumonia
          + (get_dataset_counts fs root).1.valPneumonia)
    ∧ (get_dataset_counts fs root).1.grandTotal
        = (get_dataset_counts fs root).1.trainNormal
          + (get_dataset_counts fs root).1.trainPneumonia
          + (get_dataset_counts fs root).1.testNormal
          + (get_dataset_counts fs root).1.testPneumonia
          + (get_dataset_counts fs root).1.valNormal
          + (get_dataset_counts fs root).1.valPneumonia := by
  simp only [get_dataset_counts, List.map, List.flatten, List.append_nil,
    List.cons_append, List.nil_append, List.foldl]
  simp

/-- C7: counting never fails — for every filesystem the operation totally
produces a table and warnings; a missing split folder leaves that split's
entries at 0 and surfaces the split folder path as a warning, and an
existing split folder with a missing class folder leaves that entry at 0
and surfaces the class folder path as a warning. -/
theorem counts_missing_folder (fs : DatasetFS) (root split cls : String)
    (hs : split ∈ ["train", "test", "val"])
    (hc : cls ∈ ["NORMAL", "PNEUMONIA"]) :
    (fs.dirExists [root, split] = false →
      (get_dataset_counts fs root).1.entry split cls = 0
      ∧ [root, split] ∈ (get_dataset_counts fs root).2)
    ∧ (fs.dirExists [root, split] = true →
        fs.dirExists [root, split, cls] = false →
      (get_dataset_counts fs root).1.entry split cls = 0
      ∧ [root, split, cls] ∈ (get_dataset_counts fs root).2) := by
  have hw : (get_dataset_counts fs root).2 = countWarnings fs root := rfl
  constructor
  · intro h
    constructor
    · fin_cases hs <;> fin_cases hc <;>
        simp [get_dataset_counts, CountTable.entry, splitClassCount, h]
    · rw [hw]
      fin_cases hs <;> simp [countWarnings, h]
  · intro h1 h2
    constructor
    · fin_cases hs <;> fin_cases hc <;>
        simp [get_dataset_counts, CountTable.entry, splitClassCount, h1, h2]
    · rw [hw]
      fin_cases hs <;> fin_cases hc <;> simp [countWarnings, h1, h2]

/-- A filesystem with no folders at all. -/
def emptyFS : DatasetFS := ⟨fun _ => false, fun _ => [], fun _ => false⟩

/-- Witness for C7: on a filesystem with no folders, the `train/NORMAL`
entry is 0 and the missing `train` folder is reported. -/
theorem counts_missing_folder_witness :
    (get_dataset_counts emptyFS "data").1.entry "train" "NORMAL" = 0
    ∧ ["data", "train"] ∈ (get_dataset_counts emptyFS "data").2 :=
  (counts_missing_folder emptyFS "data" "train" "NORMAL"
    (by decide) (by decide)).1 rfl

/-- The filesystem as observed by `get_dataset_stats` (lines 180-214):
folder existence, folder listing, and the decoded normalized pixel values
(`transforms.ToTensor()` output, flattened) of the image at a path. -/
structure StatsFS where
  dirExists : List String → Bool
  listDir : List String → List String
  pixels : List String → List ℚ

/-- The images visited for one (split, class) folder (lines 194-206):
every listed entry when the folder exists, nothing otherwise. -/
def classImages (fs : StatsFS) (root split cls : String) : List (List ℚ) :=
  if fs.dirExists [root, split, cls] then
    (fs.listDir [root, split, cls]).map
      (fun name => fs.pixels [root, split, cls, name])
  else []

/-- All images visited by the scan, folders in the order of lines 188 and
191: `train`, `test`, `val`, each with `NORMAL` then `PNEUMONIA`. -/
def allImages (fs : StatsFS) (root : String) : List (List ℚ) :=
  (["train", "test", "val"].map (fun split =>
    (["NORMAL", "PNEUMONIA"].map
      (fun cls => classImages fs root split cls)).flatten)).flatten

/-- The three accumulators of lines 184-186: `sum_pixel_values`,
`sum_squared_pixel_values`, `total_pixels`. -/
structure StatsAcc where
  sumPixels : ℚ
  sumSquared : ℚ
  totalPixels : ℕ

/-- The accumulation loop of lines 195-206: per image, add the pixel sum,
the sum of squared pixels, and the element count. -/
def scanImages (imgs : List (List ℚ)) : StatsAcc :=
  imgs.foldl
    (fun acc img =>
      ⟨acc.sumPixels + img.sum,
       acc.sumSquared + (img.map (fun p => p ^ 2)).sum,
       acc.totalPixels + img.length⟩)
    ⟨0, 0, 0⟩

/-- `get_dataset_stats` (lines 180-214), with the division of line 209
guarded: when `total_pixels` is 0 Python raises `ZeroDivisionError` at
`mean = sum_pixel_values / total_pixels`, so the embedding returns that
error; otherwise it returns the pair (mean, squared std), where the
squared std is the radicand `sum_of_squares / count - mean^2` of line 210
(the persisted std is its square root). -/
def get_dataset_stats (fs : StatsFS) (root : String) :
    Except String (ℚ × ℚ) :=
  let acc := scanImages (allImages fs root)
  if acc.totalPixels = 0 then .error "ZeroDivisionError"
  else
    let mean := acc.sumPixels / (acc.totalPixels : ℚ)
    .ok (mean, acc.sumSquared / (acc.totalPixels : ℚ) - mean ^ 2)

/-- The population variance, divisor `n`: the formula the spec says the
code computes. -/
def populationVariance (l : List ℚ) : ℚ :=
  (l.map (fun p => (p - l.sum / (l.length : ℚ)) ^ 2)).sum / (l.length : ℚ)

/-- Modelled from the spec: the Bessel-corrected sample variance, divisor
`n - 1`, which the spec says the code does NOT use; defined only for
contrast with `populationVariance`. -/
def besselVariance (l : List ℚ) : ℚ :=
  (l.map (fun p => (p - l.sum / (l.length : ℚ)) ^ 2)).sum
    / ((l.length : ℚ) - 1)

/-- The accumulation loop, run from any starting accumulator. -/
lemma scanImages_foldl (imgs : List (List ℚ)) :
    ∀ a : StatsAcc,
      imgs.foldl
        (fun acc img =>
          (⟨acc.sumPixels + img.sum,
            acc.sumSquared + (img.map (fun p => p ^ 2)).sum,
            acc.totalPixels + img.length⟩ : StatsAcc)) a
      = ⟨a.sumPixels + (imgs.map List.sum).sum,
         a.sumSquared + (imgs.map (fun img => (img.map (fun p => p ^ 2)).sum)).sum,
         a.totalPixels + (imgs.map List.length).sum⟩ := by
  induction imgs with
  | nil => intro a; simp
  | cons img rest ih =>
    intro a
    rw [List.foldl_cons, ih]
    simp only [List.map_cons, List.sum_cons, StatsAcc.mk.injEq]
    refine ⟨by ring, by ring, by omega⟩

/-- The accumulators equal the flat totals over all visited pixels. -/
lemma scanImages_spec (imgs : List (List ℚ)) :
    (scanImages imgs).sumPixels = imgs.flatten.sum
    ∧ (scanImages imgs).sumSquared = (imgs.flatten.map (fun p => p ^ 2)).sum
    ∧ (scanImages imgs).totalPixels = imgs.flatten.length := by
  rw [scanImages, scanImages_foldl]
  refine ⟨?_, ?_, ?_⟩
  · simp [List.sum_flatten]
  · simp [List.map_flatten, List.sum_flatten, Function.comp_def]
  · simp [List.length_flatten, Function.comp]

/-- Sum of squared deviations, expanded. -/
lemma sum_sq_sub (l : List ℚ) (m : ℚ) :
    (l.map (fun p => (p - m) ^ 2)).sum
      = (l.map (fun p => p ^ 2)).sum - 2 * m * l.sum + l.length * m ^ 2 := by
  induction l with
  | nil => simp
  | cons a t ih =>
    simp only [List.map_cons, List.sum_cons, ih, List.length_cons]
    push_cast
    ring

/-- The radicand of line 210 equals the population variance, for any
nonempty pixel list. -/
lemma radicand_eq_population_variance (l : List ℚ)
    (h0 : (l.length : ℚ) ≠ 0) :
    (l.map (fun p => p ^ 2)).sum / (l.length : ℚ)
        - (l.sum / (l.length : ℚ)) ^ 2
      = populationVariance l := by
  simp only [populationVariance]
  rw [sum_sq_sub]
  field_simp
  ring

/-- C8: whenever the scan saw at least one pixel, the computed mean is the
sum of all pixel values over the total pixel count, and the persisted
squared std (`sum_of_squares / count - mean^2`) equals the population
variance with divisor the total pixel count; on concrete data `[0, 1]`
that population variance (1/4) differs from the Bessel-corrected sample
variance (1/2). -/
theorem stats_population_formula (fs : StatsFS) (root : String)
    (h : (scanImages (allImages fs root)).totalPixels ≠ 0) :
    get_dataset_stats fs root
      = .ok ((allImages fs root).flatten.sum
              / ((allImages fs root).flatten.length : ℚ),
             populationVariance (allImages fs root).flatten)
    ∧ populationVariance [0, 1] = 1/4
    ∧ besselVariance [0, 1] = 1/2 := by
  obtain ⟨hs, hq, hn⟩ := scanImages_spec (allImages fs root)
  refine ⟨?_, ?_, ?_⟩
  · have hn0 : ((allImages fs root).flatten.length : ℚ) ≠ 0 := by
      rw [hn] at h
      exact_mod_cast h
    have hvar := radicand_eq_population_variance (allImages fs root).flatten hn0
    simp only [get_dataset_stats]
    rw [if_neg h, hs, hq, hn, hvar]
  · simp [populationVariance]
    norm_num
  · simp [besselVariance]
    norm_num

/-- A stats filesystem with a single image of pixels `[0, 1]` under
`train/NORMAL`. -/
def oneImageFS : StatsFS :=
  ⟨fun path => path == ["d", "train", "NORMAL"],
   fun path => if path == ["d", "train", "NORMAL"] then ["img"] else [],
   fun path => if path == ["d", "train", "NORMAL", "img"] then [0, 1] else []⟩

/-- Witness for C8 on the single two-pixel image `[0, 1]`. -/
theorem stats_population_formula_witness :
    get_dataset_stats oneImageFS "d"
      = .ok ((allImages oneImageFS "d").flatten.sum
              / ((allImages oneImageFS "d").flatten.length : ℚ),
             populationVariance (allImages oneImageFS "d").flatten)
    ∧ populationVariance [0, 1] = 1/4
    ∧ besselVariance [0, 1] = 1/2 :=
  stats_population_formula oneImageFS "d" (by decide)

/-- C9: when every (split, class) folder is absent or empty, the scan ends
with `total_pixels = 0` and the final mean computation fails with a
division-by-zero error instead of producing a stats record. -/
theorem stats_empty_dataset_error (fs : StatsFS) (root : String)
    (h : ∀ split ∈ (["train", "test", "val"] : List String),
        ∀ cls ∈ (["NORMAL", "PNEUMONIA"] : List String),
      fs.dirExists [root, split, cls] = false
      ∨ fs.listDir [root, split, cls] = []) :
    get_dataset_stats fs root = .error "ZeroDivisionError" := by
  have hcls : ∀ split ∈ (["train", "test", "val"] : List String),
      ∀ cls ∈ (["NORMAL", "PNEUMONIA"] : List String),
      classImages fs root split cls = [] := by
    intro split hsp cls hcl
    rcases h split hsp cls hcl with hd | hl
    · simp [classImages, hd]
    · simp [classImages, hl]
  have himgs : allImages fs root = [] := by
    simp [allImages, hcls "train" (by simp) "NORMAL" (by simp),
      hcls "train" (by simp) "PNEUMONIA" (by simp),
      hcls "test" (by simp) "NORMAL" (by simp),
      hcls "test" (by simp) "PNEUMONIA" (by simp),
      hcls "val" (by simp) "NORMAL" (by simp),
      hcls "val" (by simp) "PNEUMONIA" (by simp)]
  rw [get_dataset_stats, himgs]
  rfl

/-- A stats filesystem with no folders at all. -/
def emptyStatsFS : StatsFS := ⟨fun _ => false, fun _ => [], fun _ => []⟩

/-- Witness for C9 on the empty filesystem. -/
theorem stats_empty_dataset_error_witness :
    get_dataset_stats emptyStatsFS "d" = .error "ZeroDivisionError" :=
  stats_empty_dataset_error emptyStatsFS "d" (by decide)

end DatasetUtils
